import Mathlib

/-!
# SUPRA: the Torch inference adapter (`SupraLib/Processing/TorchInference.cpp`)

A shallow embedding of `TorchInference::layoutPermutation`, `changeLayout`,
`convertDataType`, `loadModule` and the constructor, together with the small
part of the tensor library and of the C++ string class these functions call.
-/

namespace supra

/-! ## Strings -/

/-- Character read by `std::string::operator[]` on a constant string: the stored
character for `pos < size()`, the null character for `pos == size()`, and no
defined value (`none`) beyond that. A string is taken as its sequence of
characters, one per `char`. -/
def stringAt (s : String) (pos : Nat) : Option Char :=
  match s.data[pos]? with
  | some c => some c
  | none => if pos = s.length then some (Char.ofNat 0) else none

/-! ## Layout permutation -/

/-- The expression `(layout[0] == label ? 1 : (layout[2] == label ? 2 : 3))` that
`layoutPermutation` evaluates for each of the labels `C`, `W`, `H`. Position 2 is
read only when position 0 does not hold the label. -/
def dimensionIndex (layout : String) (label : Char) : Option Nat :=
  match stringAt layout 0 with
  | none => none
  | some c0 =>
    if c0 = label then some 1
    else
      match stringAt layout 2 with
      | none => none
      | some c2 => if c2 = label then some 2 else some 3

/-- `TorchInference::layoutPermutation`: a vector of four zeros into which the
input indices of `C`, `W`, `H` are written, in this order, at their output
indices. The result is `none` when a descriptor is indexed out of its bounds. -/
def layoutPermutation (currentLayout outLayout : String) : Option (List Int) :=
  match dimensionIndex currentLayout 'C', dimensionIndex currentLayout 'W',
      dimensionIndex currentLayout 'H', dimensionIndex outLayout 'C',
      dimensionIndex outLayout 'W', dimensionIndex outLayout 'H' with
  | some inDimensionC, some inDimensionW, some inDimensionH,
      some outDimensionC, some outDimensionW, some outDimensionH =>
    let permutation : List Int := List.replicate 4 0
    let permutation := permutation.set 0 0
    let permutation := permutation.set outDimensionC (inDimensionC : Int)
    let permutation := permutation.set outDimensionW (inDimensionW : Int)
    let permutation := permutation.set outDimensionH (inDimensionH : Int)
    some permutation
  | _, _, _, _, _, _ => none

/-! ## Tensors

The tensor library is external to the repository. A tensor is modelled by its
element type, its sizes and its elements, read by multi-index. An element is
stored as an integer payload: the numeric value for the integral element types,
an encoding of the stored value for the others. -/

/-- Element types of the tensor library (`kByte` is `uint8_t`, `kChar` is
`int8_t`, `kShort`, `kInt`, `kLong` are the 16, 32 and 64 bit signed integers);
`kOther` stands for any further element type of the library. -/
inductive ScalarType where
  | kByte
  | kChar
  | kShort
  | kInt
  | kLong
  | kHalf
  | kFloat
  | kDouble
  | kOther (tag : Nat)
  deriving DecidableEq, Repr

/-- Smallest and largest value of an integral element type. -/
def ScalarType.intRange : ScalarType → Option (Int × Int)
  | .kByte => some (0, 255)
  | .kChar => some (-128, 127)
  | .kShort => some (-32768, 32767)
  | .kInt => some (-2147483648, 2147483647)
  | .kLong => some (-9223372036854775808, 9223372036854775807)
  | _ => none

/-- A tensor: element type, sizes of its dimensions, element at a multi-index. -/
structure Tensor where
  dtype : ScalarType
  sizes : List Nat
  elem : List Nat → Int

/-- The representative of `v` in the range `lo .. hi` modulo the number of values
of that range (two's complement wrap-around of an integer conversion). -/
def wrapTo (lo hi v : Int) : Int :=
  lo + (v - lo) % (hi - lo + 1)

/-- Native conversion of one element from `src` to `dst`. Between integral types
it is the modular integer conversion; every conversion that involves a
non-integral type is left to `native`, which is not modelled. -/
def convertElement (native : ScalarType → ScalarType → Int → Int)
    (src dst : ScalarType) (v : Int) : Int :=
  match src.intRange, dst.intRange with
  | some _, some (lo, hi) => wrapTo lo hi v
  | _, _ => native src dst v

/-- The library's `Tensor::to(dtype)`: the tensor itself when it already has the
element type, otherwise a tensor of the same sizes whose elements are the
converted elements. -/
def Tensor.to (native : ScalarType → ScalarType → Int → Int) (t : Tensor)
    (dtype : ScalarType) : Tensor :=
  if t.dtype = dtype then t
  else
    { dtype := dtype
      sizes := t.sizes
      elem := fun idx => convertElement native t.dtype dtype (t.elem idx) }

/-- The library's dimension wrapping: `dim` must lie in `-n .. n-1`, a negative
one counts from the end. -/
def maybeWrapDim (dim : Int) (n : Nat) : Except String Nat :=
  if dim < -(n : Int) ∨ (n : Int) ≤ dim then .error "Dimension out of range"
  else if dim < 0 then .ok (dim + n).toNat
  else .ok dim.toNat

/-- The loop of the library's `permute` over the requested dimensions: each one is
wrapped and must not have been seen before. -/
def permuteDims (n : Nat) : List Int → List Nat → Except String (List Nat)
  | [], _ => .ok []
  | d :: rest, seen =>
    match maybeWrapDim d n with
    | .error e => .error e
    | .ok k =>
      if k ∈ seen then .error "repeated dim in permute"
      else
        match permuteDims n rest (k :: seen) with
        | .error e => .error e
        | .ok ks => .ok (k :: ks)

/-- Sizes read through a list of dimensions: entry `i` of the result is the size
of dimension `dims[i]`. -/
def reorderSizes (sizes : List Nat) (dims : List Nat) : List Nat :=
  dims.map (fun d => sizes.getD d 0)

/-- The library's `Tensor::permute(dims)`: it raises when the number of dims is
not the tensor's, when a dim is out of range or repeated; otherwise dimension `i`
of the result is dimension `dims[i]` of the tensor. -/
def Tensor.permute (t : Tensor) (dims : List Int) : Except String Tensor :=
  if dims.length ≠ t.sizes.length then .error "number of dims don't match in permute"
  else
    match permuteDims t.sizes.length dims [] with
    | .error e => .error e
    | .ok ds =>
      .ok
        { dtype := t.dtype
          sizes := reorderSizes t.sizes ds
          elem := fun idx =>
            t.elem ((List.range t.sizes.length).map (fun j => idx.getD (ds.indexOf j) 0)) }

/-! ## Layout change -/

/-- `TorchInference::changeLayout`. An out-of-bounds read of a descriptor and an
exception of `permute` both leave the function without a tensor. -/
def changeLayout (tensor : Tensor) (currentLayout outLayout : String) :
    Except String Tensor :=
  if currentLayout ≠ outLayout then
    match layoutPermutation currentLayout outLayout with
    | none => .error "layout descriptor read out of bounds"
    | some permutation => tensor.permute permutation
  else .ok tensor

/-! ## Element type conversion -/

/-- Modelled from the spec: the declaration of the enumeration `DataType` is not
part of the sources at hand. It has the eight enumerators that `convertDataType`
names; `TypeOther` stands for every other value of the enumeration. -/
inductive DataType where
  | TypeInt8
  | TypeUint8
  | TypeInt16
  | TypeInt32
  | TypeInt64
  | TypeHalf
  | TypeFloat
  | TypeDouble
  | TypeOther (value : Nat)
  deriving DecidableEq, Repr

/-- What `convertDataType` takes from outside the model: the native element
conversion of the tensor library and the text the logger prints for a
`DataType`. -/
structure Runtime where
  nativeCast : ScalarType → ScalarType → Int → Int
  showDataType : DataType → String

/-- `TorchInference::convertDataType`; the second component is the list of error
messages it logs. -/
def convertDataType (rt : Runtime) (tensor : Tensor) (datatype : DataType) :
    Tensor × List String :=
  match datatype with
  | .TypeInt8 => (tensor.to rt.nativeCast .kChar, [])
  | .TypeUint8 => (tensor.to rt.nativeCast .kByte, [])
  | .TypeInt16 => (tensor.to rt.nativeCast .kShort, [])
  | .TypeInt32 => (tensor.to rt.nativeCast .kInt, [])
  | .TypeInt64 => (tensor.to rt.nativeCast .kLong, [])
  | .TypeHalf => (tensor.to rt.nativeCast .kHalf, [])
  | .TypeFloat => (tensor.to rt.nativeCast .kFloat, [])
  | .TypeDouble => (tensor.to rt.nativeCast .kDouble, [])
  | .TypeOther _ =>
    (tensor,
      ["TorchInference: convertDataType: Type '" ++ rt.showDataType datatype
        ++ "' is not supported."])

/-! ## Loading the model and the two expression modules -/

/-- A compiled artifact (a loaded model or a compiled expression); the adapter
only stores it. -/
structure Module where
  handle : Nat
  deriving DecidableEq, Repr

/-- How a call into the inference runtime ends: it returns a module, or it raises
an exception. `c10Error` and `runtimeError` are the two exception types for
which `loadModule` has a handler; `otherException` is an exception of any other
type (a `std::logic_error`, say), which no handler of `loadModule` matches. -/
inductive Outcome where
  | success (module : Module)
  | c10Error (what msgStack : String)
  | runtimeError (what : String)
  | otherException (what : String)
  deriving DecidableEq, Repr

/-- The external operations `loadModule` calls. -/
structure Env where
  fileExists : String → Bool
  jitLoad : String → Outcome
  toCUDA : Module → Outcome
  jitCompile : String → Outcome

/-- What `loadModule` does to the outside, in order. -/
inductive Event where
  | logError (message : String)
  | fileExistsCall (path : String)
  | jitLoadCall (path : String)
  | toCUDACall (module : Module)
  | jitCompileCall (source : String)
  deriving DecidableEq, Repr

/-- The members of `TorchInference`. -/
structure TorchInference where
  m_modelFilename : String
  m_inputNormalization : String
  m_outputDenormalization : String
  m_torchModule : Option Module
  m_inputNormalizationModule : Option Module
  m_outputDenormalizationModule : Option Module
  deriving DecidableEq, Repr

/-- The end of a run of a member function: the members as the run leaves them, the
events of the run in order, and the exception that leaves the function, if one
does (`none` when the function returns). -/
structure Run where
  self : TorchInference
  events : List Event
  raised : Option String
  deriving DecidableEq, Repr

/-- `logging::log_error_if`. -/
def logErrorIf (cond : Bool) (message : String) : List Event :=
  if cond then [.logError message] else []

/-- Body of the `try` block that loads the model: `torch::jit::load` followed by
`module->to(torch::kCUDA)`; an exception of either ends the block. -/
def tryLoadModel (env : Env) (path : String) : Outcome × List Event :=
  match env.jitLoad path with
  | .success module => (env.toCUDA module, [.jitLoadCall path, .toCUDACall module])
  | failure => (failure, [.jitLoadCall path])

/-- Source text handed to the compiler for the normalization expression. -/
def normalizeSource (expression : String) : String :=
  "  def normalize(a):\n    return " ++ expression ++ "\n"

/-- Source text handed to the compiler for the denormalization expression. -/
def denormalizeSource (expression : String) : String :=
  "  def denormalize(a):\n    return " ++ expression ++ "\n"

/-- The model step of `loadModule` (the `if (m_modelFilename != "")` statement).
An exception that neither handler matches leaves the step before the assignment
to `m_torchModule`. -/
def loadModelStep (env : Env) (self : TorchInference) : Run :=
  if self.m_modelFilename ≠ "" then
    if env.fileExists self.m_modelFilename then
      match tryLoadModel env self.m_modelFilename with
      | (.success module, calls) =>
        { self := { self with m_torchModule := some module }
          events := .fileExistsCall self.m_modelFilename :: calls
          raised := none }
      | (.c10Error what msgStack, calls) =>
        { self := { self with m_torchModule := none }
          events :=
            .fileExistsCall self.m_modelFilename :: calls ++
              [.logError ("TorchInference: Exception (c10::Error) while loading model '"
                  ++ self.m_modelFilename ++ "'"),
                .logError ("TorchInference: " ++ what),
                .logError ("TorchInference: " ++ msgStack)]
          raised := none }
      | (.runtimeError what, calls) =>
        { self := { self with m_torchModule := none }
          events :=
            .fileExistsCall self.m_modelFilename :: calls ++
              [.logError
                  ("TorchInference: Exception (std::runtime_error) while loading model '"
                    ++ self.m_modelFilename ++ "'"),
                .logError ("TorchInference: " ++ what)]
          raised := none }
      | (.otherException what, calls) =>
        { self := self
          events := .fileExistsCall self.m_modelFilename :: calls
          raised := some what }
    else
      { self := self
        events :=
          [.fileExistsCall self.m_modelFilename,
            .logError ("TorchInference: Error while loading model '" ++ self.m_modelFilename
              ++ "'. The file does not exist.")]
        raised := none }
  else { self := self, events := [], raised := none }

/-- The normalization step of `loadModule`. -/
def buildNormalizationStep (env : Env) (self : TorchInference) : Run :=
  if self.m_inputNormalization ≠ "" then
    match env.jitCompile (normalizeSource self.m_inputNormalization) with
    | .success module =>
      { self := { self with m_inputNormalizationModule := some module }
        events := [.jitCompileCall (normalizeSource self.m_inputNormalization)]
        raised := none }
    | .c10Error what msgStack =>
      { self := { self with m_inputNormalizationModule := none }
        events :=
          [.jitCompileCall (normalizeSource self.m_inputNormalization),
            .logError
              ("TorchInference: Exception (c10::Error) while building normalization module '"
                ++ self.m_inputNormalization ++ "'"),
            .logError ("TorchInference: " ++ what),
            .logError ("TorchInference: " ++ msgStack)]
        raised := none }
    | .runtimeError what =>
      { self := { self with m_inputNormalizationModule := none }
        events :=
          [.jitCompileCall (normalizeSource self.m_inputNormalization),
            .logError
              ("TorchInference: Exception (std::runtime_error) while building normalization module '"
                ++ self.m_inputNormalization ++ "'"),
            .logError ("TorchInference: " ++ what)]
        raised := none }
    | .otherException what =>
      { self := self
        events := [.jitCompileCall (normalizeSource self.m_inputNormalization)]
        raised := some what }
  else { self := self, events := [], raised := none }

/-- The denormalization step of `loadModule`. -/
def buildDenormalizationStep (env : Env) (self : TorchInference) : Run :=
  if self.m_outputDenormalization ≠ "" then
    match env.jitCompile (denormalizeSource self.m_outputDenormalization) with
    | .success module =>
      { self := { self with m_outputDenormalizationModule := some module }
        events := [.jitCompileCall (denormalizeSource self.m_outputDenormalization)]
        raised := none }
    | .c10Error what msgStack =>
      { self := { self with m_outputDenormalizationModule := none }
        events :=
          [.jitCompileCall (denormalizeSource self.m_outputDenormalization),
            .logError
              ("TorchInference: Exception (c10::Error) while building denormalization module '"
                ++ self.m_outputDenormalization ++ "'"),
            .logError ("TorchInference: " ++ what),
            .logError ("TorchInference: " ++ msgStack)]
        raised := none }
    | .runtimeError what =>
      { self := { self with m_outputDenormalizationModule := none }
        events :=
          [.jitCompileCall (denormalizeSource self.m_outputDenormalization),
            .logError
              ("TorchInference: Exception (std::runtime_error) while building denormalization module '"
                ++ self.m_outputDenormalization ++ "'"),
            .logError ("TorchInference: " ++ what)]
        raised := none }
    | .otherException what =>
      { self := self
        events := [.jitCompileCall (denormalizeSource self.m_outputDenormalization)]
        raised := some what }
  else { self := self, events := [], raised := none }

/-- `TorchInference::loadModule`. The three artifacts are reset, the three checks
are logged, then the three steps run in order; an exception that leaves a step
leaves `loadModule` and the later steps do not run. -/
def loadModule (env : Env) (self : TorchInference) : Run :=
  let self :=
    { self with
      m_torchModule := none
      m_inputNormalizationModule := none
      m_outputDenormalizationModule := none }
  let checks :=
    logErrorIf (self.m_modelFilename == "")
        "TorchInference: Error while loading model: Model path is empty."
      ++ logErrorIf (self.m_inputNormalization == "")
        "TorchInference: Error while building module: Normalization string is empty."
      ++ logErrorIf (self.m_outputDenormalization == "")
        "TorchInference: Error while building module: Denormalization string is empty."
  let model := loadModelStep env self
  match model.raised with
  | some what => { self := model.self, events := checks ++ model.events, raised := some what }
  | none =>
    let norm := buildNormalizationStep env model.self
    match norm.raised with
    | some what =>
      { self := norm.self, events := checks ++ model.events ++ norm.events, raised := some what }
    | none =>
      let denorm := buildDenormalizationStep env norm.self
      { self := denorm.self
        events := checks ++ model.events ++ norm.events ++ denorm.events
        raised := denorm.raised }

/-- The constructor `TorchInference::TorchInference`: the members are initialised,
an empty expression is replaced by `a`, and `loadModule` runs; an exception that
leaves `loadModule` leaves the constructor. -/
def TorchInference.new (env : Env)
    (modelFilename inputNormalization outputDenormalization : String) : Run :=
  let self : TorchInference :=
    { m_modelFilename := modelFilename
      m_inputNormalization := inputNormalization
      m_outputDenormalization := outputDenormalization
      m_torchModule := none
      m_inputNormalizationModule := none
      m_outputDenormalizationModule := none }
  let self :=
    if self.m_inputNormalization = "" then { self with m_inputNormalization := "a" }
    else self
  let self :=
    if self.m_outputDenormalization = "" then { self with m_outputDenormalization := "a" }
    else self
  loadModule env self

/-! ## Specification vocabulary -/

/-- One of the three axis labels `C`, `W`, `H`. -/
def isAxisLabel (c : Char) : Bool :=
  c = 'C' || c = 'W' || c = 'H'

/-- The characters at positions 0 and 2 of the descriptor are two different axis
labels. -/
def twoLabels (layout : String) : Bool :=
  match stringAt layout 0, stringAt layout 2 with
  | some c0, some c2 => isAxisLabel c0 && isAxisLabel c2 && c0 != c2
  | _, _ => false

/-- The index rule in the words of the specification: 1 if the character at
position 0 is the label, else 2 if the character at position 2 is, else 3. -/
def labelIndex (c0 c2 label : Char) : Nat :=
  if c0 = label then 1 else if c2 = label then 2 else 3

/-- The vector `layoutPermutation` builds from the six indices. -/
def permutationOfIndices (inC inW inH outC outW outH : Nat) : List Int :=
  ((((List.replicate 4 (0 : Int)).set 0 0).set outC (inC : Int)).set outW (inW : Int)).set
    outH (inH : Int)

/-- The vector `layoutPermutation` builds, as a function of the characters at
positions 0 and 2 of the two descriptors. -/
def permutationOfChars (i0 i2 o0 o2 : Char) : List Int :=
  permutationOfIndices (labelIndex i0 i2 'C') (labelIndex i0 i2 'W') (labelIndex i0 i2 'H')
    (labelIndex o0 o2 'C') (labelIndex o0 o2 'W') (labelIndex o0 o2 'H')

/-- The indices of `C`, `W`, `H` that two characters can produce, each with the
answer to "are the two characters different axis labels". -/
def indexTable : List (Nat × Nat × Nat × Bool) :=
  [(1, 2, 3, true), (1, 3, 2, true), (2, 1, 3, true), (3, 1, 2, true), (2, 3, 1, true),
    (3, 2, 1, true), (1, 3, 3, false), (3, 1, 3, false), (3, 3, 1, false), (2, 3, 3, false),
    (3, 2, 3, false), (3, 3, 2, false), (3, 3, 3, false)]

/-- Entry `k` of `q` read through `p`: `q[p[k]]`. -/
def composeAt (q p : List Int) (k : Nat) : Option Int :=
  (p[k]?).bind (fun v => q[v.toNat]?)

/-- The two vectors are inverse permutations of `0, 1, 2, 3`: reading either one
through the other gives back every position. -/
def inversePermutations (p q : List Int) : Prop :=
  ∀ k : Nat, k < 4 → composeAt q p k = some (k : Int) ∧ composeAt p q k = some (k : Int)

instance (p q : List Int) : Decidable (inversePermutations p q) := by
  unfold inversePermutations
  infer_instance

/-- The element type a handled `DataType` names; `none` for every other value. -/
def targetScalarType : DataType → Option ScalarType
  | .TypeInt8 => some .kChar
  | .TypeUint8 => some .kByte
  | .TypeInt16 => some .kShort
  | .TypeInt32 => some .kInt
  | .TypeInt64 => some .kLong
  | .TypeHalf => some .kHalf
  | .TypeFloat => some .kFloat
  | .TypeDouble => some .kDouble
  | .TypeOther _ => none

/-- The conversion from `src` to `dst` is a widening integer conversion: both are
integral and every value of `src` is a value of `dst`. -/
def widens (src dst : ScalarType) : Bool :=
  match src.intRange, dst.intRange with
  | some (a, b), some (lo, hi) => decide (lo ≤ a) && decide (b ≤ hi)
  | _, _ => false

/-- The payload is a value of the element type (no condition for the
non-integral types). -/
def inRange (dtype : ScalarType) (v : Int) : Bool :=
  match dtype.intRange with
  | some (lo, hi) => decide (lo ≤ v) && decide (v ≤ hi)
  | none => true

/-- An event that is neither a file check nor a step of loading the model. -/
def Event.besideModel : Event → Bool
  | .logError _ => true
  | .jitCompileCall _ => true
  | _ => false

/-- The module of a call that returned one. -/
def Outcome.module? : Outcome → Option Module
  | .success m => some m
  | _ => none

/-- The model that `torch::jit::load` followed by the transfer to the device
gives for a path, when both return. -/
def loadedModel (env : Env) (path : String) : Option Module :=
  match env.jitLoad path with
  | .success m =>
    match env.toCUDA m with
    | .success onDevice => some onDevice
    | _ => none
  | _ => none

/-- The call returned or raised an exception of a type `loadModule` handles. -/
def Outcome.handled : Outcome → Bool
  | .otherException _ => false
  | _ => true

/-- A sample environment in which the compiler raises an exception that is
neither a `c10::Error` nor a `std::runtime_error`. -/
def sampleEnvLogicError : Env :=
  { fileExists := fun _ => true
    jitLoad := fun _ => .success ⟨1⟩
    toCUDA := fun m => .success m
    jitCompile := fun _ => .otherException "std::logic_error" }

/-- A sample environment: every file exists, the model loads, and the compiler
raises a runtime error. -/
def sampleEnv : Env :=
  { fileExists := fun _ => true
    jitLoad := fun _ => .success ⟨1⟩
    toCUDA := fun m => .success m
    jitCompile := fun _ => .runtimeError "parse error" }

/-- A sample adapter with a model path and an empty denormalization string. -/
def sampleAdapterWithPath : TorchInference :=
  { m_modelFilename := "model.pt"
    m_inputNormalization := "a"
    m_outputDenormalization := ""
    m_torchModule := none
    m_inputNormalizationModule := some ⟨5⟩
    m_outputDenormalizationModule := none }

/-- A sample adapter with an empty model path that still holds a model from an
earlier load. -/
def sampleAdapter : TorchInference :=
  { m_modelFilename := ""
    m_inputNormalization := "a * 2"
    m_outputDenormalization := "a"
    m_torchModule := some ⟨7⟩
    m_inputNormalizationModule := none
    m_outputDenormalizationModule := some ⟨8⟩ }

/-! ## Lemmas on the layout permutation -/

theorem stringAt_of_lt (s : String) (pos : Nat) (h : pos < s.length) :
    ∃ c, stringAt s pos = some c ∧ s.data[pos]? = some c := by
  have h2 : pos < s.data.length := h
  refine ⟨s.data[pos], ?_, ?_⟩
  · simp [stringAt, List.getElem?_eq_getElem h2]
  · simp [List.getElem?_eq_getElem h2]

theorem dimensionIndex_eq (s : String) (c0 c2 : Char) (h0 : stringAt s 0 = some c0)
    (h2 : stringAt s 2 = some c2) (label : Char) :
    dimensionIndex s label = some (labelIndex c0 c2 label) := by
  unfold dimensionIndex labelIndex
  rw [h0]
  by_cases h : c0 = label
  · simp [h]
  · simp [h, h2]
    split <;> rfl

theorem layoutPermutation_eq (cur out : String) (i0 i2 o0 o2 : Char)
    (hi0 : stringAt cur 0 = some i0) (hi2 : stringAt cur 2 = some i2)
    (ho0 : stringAt out 0 = some o0) (ho2 : stringAt out 2 = some o2) :
    layoutPermutation cur out = some (permutationOfChars i0 i2 o0 o2) := by
  unfold layoutPermutation
  simp only [dimensionIndex_eq cur i0 i2 hi0 hi2, dimensionIndex_eq out o0 o2 ho0 ho2]
  rfl

theorem twoLabels_eq (s : String) (c0 c2 : Char) (h0 : stringAt s 0 = some c0)
    (h2 : stringAt s 2 = some c2) :
    twoLabels s = (isAxisLabel c0 && isAxisLabel c2 && c0 != c2) := by
  unfold twoLabels
  rw [h0, h2]

theorem twoLabels_chars (s : String) (h : twoLabels s = true) :
    ∃ c0 c2, stringAt s 0 = some c0 ∧ stringAt s 2 = some c2 ∧
      (isAxisLabel c0 && isAxisLabel c2 && c0 != c2) = true := by
  unfold twoLabels at h
  split at h
  · next c0 c2 h0 h2 => exact ⟨c0, c2, h0, h2, h⟩
  · exact absurd h (by simp)

theorem char_cases (c : Char) :
    c = 'C' ∨ c = 'W' ∨ c = 'H' ∨ (c ≠ 'C' ∧ c ≠ 'W' ∧ c ≠ 'H') := by
  by_cases h1 : c = 'C'
  · exact Or.inl h1
  by_cases h2 : c = 'W'
  · exact Or.inr (Or.inl h2)
  by_cases h3 : c = 'H'
  · exact Or.inr (Or.inr (Or.inl h3))
  exact Or.inr (Or.inr (Or.inr ⟨h1, h2, h3⟩))

theorem labelIndex_mem_table (c0 c2 : Char) :
    (labelIndex c0 c2 'C', labelIndex c0 c2 'W', labelIndex c0 c2 'H',
      isAxisLabel c0 && isAxisLabel c2 && c0 != c2) ∈ indexTable := by
  rcases char_cases c0 with h | h | h | ⟨h, hW, hH⟩ <;>
  rcases char_cases c2 with k | k | k | ⟨k, kW, kH⟩ <;>
  simp [labelIndex, isAxisLabel, indexTable, *]

theorem table_perm_iff :
    ∀ e ∈ indexTable, ∀ f ∈ indexTable,
      ((permutationOfIndices e.1 e.2.1 e.2.2.1 f.1 f.2.1 f.2.2.1).Perm [0, 1, 2, 3] ↔
        (e.2.2.2 = true ∧ f.2.2.2 = true)) ∧
      ((permutationOfIndices e.1 e.2.1 e.2.2.1 f.1 f.2.1 f.2.2.1).Nodup ↔
        (e.2.2.2 = true ∧ f.2.2.2 = true)) := by
  decide

theorem table_inverse :
    ∀ e ∈ indexTable, ∀ f ∈ indexTable, e.2.2.2 = true → f.2.2.2 = true →
      inversePermutations (permutationOfIndices e.1 e.2.1 e.2.2.1 f.1 f.2.1 f.2.2.1)
        (permutationOfIndices f.1 f.2.1 f.2.2.1 e.1 e.2.1 e.2.2.1) := by
  decide

theorem table_permute_roundtrip (dt : ScalarType) (s0 s1 s2 s3 : Nat) (el : List Nat → Int) :
    ∀ e ∈ indexTable, ∀ f ∈ indexTable, e.2.2.2 = true → f.2.2.2 = true →
      ∃ r1 r2,
        Tensor.permute ⟨dt, [s0, s1, s2, s3], el⟩
            (permutationOfIndices e.1 e.2.1 e.2.2.1 f.1 f.2.1 f.2.2.1) = .ok r1 ∧
          r1.permute (permutationOfIndices f.1 f.2.1 f.2.2.1 e.1 e.2.1 e.2.2.1) = .ok r2 ∧
          r1.sizes.length = 4 ∧ r2.sizes = [s0, s1, s2, s3] ∧ r2.dtype = dt ∧
          ∀ a b c d : Nat, r2.elem [a, b, c, d] = el [a, b, c, d] := by
  intro e he f hf h1 h2
  simp only [indexTable, List.mem_cons, List.mem_singleton, List.not_mem_nil, or_false] at he hf
  rcases he with rfl | rfl | rfl | rfl | rfl | rfl | rfl | rfl | rfl | rfl | rfl | rfl | rfl <;>
  first
  | exact absurd h1 (by decide)
  | (rcases hf with rfl | rfl | rfl | rfl | rfl | rfl | rfl | rfl | rfl | rfl | rfl | rfl | rfl <;>
      first
      | exact absurd h2 (by decide)
      | exact ⟨_, _, rfl, rfl, rfl, rfl, rfl, fun _ _ _ _ => rfl⟩)

theorem chars_of_length (s : String) (h : 3 ≤ s.length) :
    ∃ c0 c2, stringAt s 0 = some c0 ∧ stringAt s 2 = some c2 ∧
      s.data[0]? = some c0 ∧ s.data[2]? = some c2 := by
  obtain ⟨c0, h0, d0⟩ := stringAt_of_lt s 0 (by omega)
  obtain ⟨c2, h2, d2⟩ := stringAt_of_lt s 2 (by omega)
  exact ⟨c0, c2, h0, h2, d0, d2⟩

theorem permutationOfIndices_entries (inC inW inH outC outW outH : Nat)
    (hC : 1 ≤ outC ∧ outC ≤ 3) (hW : 1 ≤ outW ∧ outW ≤ 3) (hH : 1 ≤ outH ∧ outH ≤ 3) :
    (permutationOfIndices inC inW inH outC outW outH).length = 4 ∧
      (permutationOfIndices inC inW inH outC outW outH)[0]? = some 0 ∧
      (permutationOfIndices inC inW inH outC outW outH)[outH]? = some (inH : Int) ∧
      (outW ≠ outH →
        (permutationOfIndices inC inW inH outC outW outH)[outW]? = some (inW : Int)) ∧
      (outC ≠ outW → outC ≠ outH →
        (permutationOfIndices inC inW inH outC outW outH)[outC]? = some (inC : Int)) := by
  obtain ⟨c1, c2⟩ := hC
  obtain ⟨w1, w2⟩ := hW
  obtain ⟨h1, h2⟩ := hH
  interval_cases outC <;> interval_cases outW <;> interval_cases outH <;>
    simp [permutationOfIndices]

theorem labelIndex_bounds (c0 c2 label : Char) :
    1 ≤ labelIndex c0 c2 label ∧ labelIndex c0 c2 label ≤ 3 := by
  unfold labelIndex
  split
  · omega
  · split <;> omega

theorem labelIndex_injective_of_labels (c0 c2 : Char)
    (h : (isAxisLabel c0 && isAxisLabel c2 && c0 != c2) = true) :
    labelIndex c0 c2 'C' ≠ labelIndex c0 c2 'W' ∧ labelIndex c0 c2 'C' ≠ labelIndex c0 c2 'H' ∧
      labelIndex c0 c2 'W' ≠ labelIndex c0 c2 'H' := by
  have hm := labelIndex_mem_table c0 c2
  rw [h] at hm
  generalize labelIndex c0 c2 'C' = x at hm ⊢
  generalize labelIndex c0 c2 'W' = y at hm ⊢
  generalize labelIndex c0 c2 'H' = z at hm ⊢
  simp only [indexTable, List.mem_cons, List.mem_singleton, List.not_mem_nil, or_false,
    Prod.mk.injEq, Bool.true_eq_false, and_false, or_false, and_true] at hm
  omega

theorem permute_ok_iff (t : Tensor) (dims : List Int) (h : dims.length = t.sizes.length) :
    (∃ r, t.permute dims = .ok r) ↔ (permuteDims t.sizes.length dims []).toBool = true := by
  unfold Tensor.permute
  simp only [ne_eq, h, not_true_eq_false, if_false]
  cases permuteDims t.sizes.length dims [] with
  | error e => simp [Except.toBool]
  | ok ds => simp [Except.toBool]

theorem table_permuteDims :
    ∀ e ∈ indexTable, ∀ f ∈ indexTable,
      (permutationOfIndices e.1 e.2.1 e.2.2.1 f.1 f.2.1 f.2.2.1).length = 4 ∧
      ((permuteDims 4 (permutationOfIndices e.1 e.2.1 e.2.2.1 f.1 f.2.1 f.2.2.1) []).toBool = true
        ↔ (e.2.2.2 = true ∧ f.2.2.2 = true)) := by
  decide

theorem changeLayout_eq_self (t : Tensor) (L : String) : changeLayout t L L = .ok t := by
  simp [changeLayout]

/-! ## Claims on the layout permutation -/

/-- C1, the claim fails: for `NCHW` to `NHWC`, and for `NHWC` to `NCHW`, the vector
`layoutPermutation` returns is `[0, 0, 3, 2]`; read through it, the shape
`[2, 3, 4, 5]` becomes `[2, 2, 5, 4]` and not `[2, 4, 5, 3]`, and `changeLayout`
of a tensor of that shape ends in the exception of `permute`. -/
theorem changeLayout_NCHW_NHWC_not_reordered :
    layoutPermutation "NCHW" "NHWC" = some [0, 0, 3, 2] ∧
      layoutPermutation "NHWC" "NCHW" = some [0, 0, 3, 2] ∧
      reorderSizes [2, 3, 4, 5] [0, 0, 3, 2] = [2, 2, 5, 4] ∧
      reorderSizes [2, 3, 4, 5] [0, 0, 3, 2] ≠ [2, 4, 5, 3] ∧
      ¬ ∃ r, changeLayout ⟨.kFloat, [2, 3, 4, 5], fun _ => 0⟩ "NCHW" "NHWC" = .ok r ∧
        r.sizes = [2, 4, 5, 3] := by
  refine ⟨by decide, by decide, by decide, by decide, ?_⟩
  rintro ⟨r, hr, -⟩
  have h : changeLayout ⟨.kFloat, [2, 3, 4, 5], fun _ => 0⟩ "NCHW" "NHWC"
      = .error "repeated dim in permute" := by
    have hp : layoutPermutation "NCHW" "NHWC" = some [0, 0, 3, 2] := by decide
    have hne : ("NCHW" : String) ≠ "NHWC" := by decide
    simp only [changeLayout, hne, ne_eq, not_false_eq_true, if_true, hp]
    rfl
  rw [h] at hr
  cases hr

/-- C1 as amended: for the descriptors `CxHxW` and `HxWxC`, whose labels stand at
positions 0, 2 and 4, `layoutPermutation` returns `[0, 2, 3, 1]` and, for the
opposite direction, `[0, 3, 1, 2]`; `changeLayout` turns every shape
`[B, C, H, W]` into `[B, H, W, C]` and every shape `[B, H, W, C]` back into
`[B, C, H, W]`. -/
theorem changeLayout_CxHxW_HxWxC (dt : ScalarType) (B C H W : Nat) (el : List Nat → Int) :
    layoutPermutation "CxHxW" "HxWxC" = some [0, 2, 3, 1] ∧
      layoutPermutation "HxWxC" "CxHxW" = some [0, 3, 1, 2] ∧
      (∃ r, changeLayout ⟨dt, [B, C, H, W], el⟩ "CxHxW" "HxWxC" = .ok r ∧
        r.sizes = [B, H, W, C]) ∧
      (∃ r, changeLayout ⟨dt, [B, H, W, C], el⟩ "HxWxC" "CxHxW" = .ok r ∧
        r.sizes = [B, C, H, W]) := by
  have hp : layoutPermutation "CxHxW" "HxWxC" = some [0, 2, 3, 1] := by decide
  have hq : layoutPermutation "HxWxC" "CxHxW" = some [0, 3, 1, 2] := by decide
  have hne : ("CxHxW" : String) ≠ "HxWxC" := by decide
  have hne2 : ("HxWxC" : String) ≠ "CxHxW" := by decide
  refine ⟨hp, hq, ?_, ?_⟩
  · simp only [changeLayout, hne, ne_eq, not_false_eq_true, if_true, hp]
    exact ⟨_, rfl, rfl⟩
  · simp only [changeLayout, hne2, ne_eq, not_false_eq_true, if_true, hq]
    exact ⟨_, rfl, rfl⟩

/-- C2: `changeLayout` with twice the same descriptor returns the tensor it was
given, whatever the tensor and the descriptor. -/
theorem changeLayout_same_layout (t : Tensor) (L : String) :
    changeLayout t L L = .ok t := by
  simp [changeLayout]

/-- C3, the claim fails: for `NCHW` to `NHWC` the output index of `C` is 3 and its
input index is 3, but entry 3 of the vector is 2, the input index of `H`, which
was written to the same place after it. -/
theorem layoutPermutation_entry_overwritten :
    layoutPermutation "NCHW" "NHWC" = some [0, 0, 3, 2] ∧
      dimensionIndex "NCHW" 'C' = some 3 ∧ dimensionIndex "NHWC" 'C' = some 3 ∧
      dimensionIndex "NCHW" 'H' = some 2 ∧ dimensionIndex "NHWC" 'H' = some 3 ∧
      ([0, 0, 3, 2] : List Int)[3]? = some 2 ∧ ([0, 0, 3, 2] : List Int)[3]? ≠ some 3 := by
  decide

/-- C3 as amended: for descriptors of length at least 3, with `i0`, `i2` the
characters at positions 0 and 2 of `currentLayout` and `o0`, `o2` those of
`outLayout`, the vector has length 4 and entry 0 equal to 0; the equation
`p[outIndex(label)] = inIndex(label)` holds for `H`, for `W` unless `H` has the
same output index, and for `C` unless `W` or `H` has the same output index. All
three hold when `o0` and `o2` are two different axis labels. -/
theorem layoutPermutation_entries (currentLayout outLayout : String)
    (hc : 3 ≤ currentLayout.length) (ho : 3 ≤ outLayout.length) :
    ∃ (p : List Int) (i0 i2 o0 o2 : Char),
      currentLayout.data[0]? = some i0 ∧ currentLayout.data[2]? = some i2 ∧
      outLayout.data[0]? = some o0 ∧ outLayout.data[2]? = some o2 ∧
      layoutPermutation currentLayout outLayout = some p ∧
      p.length = 4 ∧ p[0]? = some 0 ∧
      p[labelIndex o0 o2 'H']? = some (labelIndex i0 i2 'H' : Int) ∧
      (labelIndex o0 o2 'W' ≠ labelIndex o0 o2 'H' →
        p[labelIndex o0 o2 'W']? = some (labelIndex i0 i2 'W' : Int)) ∧
      (labelIndex o0 o2 'C' ≠ labelIndex o0 o2 'W' →
        labelIndex o0 o2 'C' ≠ labelIndex o0 o2 'H' →
        p[labelIndex o0 o2 'C']? = some (labelIndex i0 i2 'C' : Int)) ∧
      (twoLabels outLayout = true →
        p[labelIndex o0 o2 'C']? = some (labelIndex i0 i2 'C' : Int) ∧
        p[labelIndex o0 o2 'W']? = some (labelIndex i0 i2 'W' : Int) ∧
        p[labelIndex o0 o2 'H']? = some (labelIndex i0 i2 'H' : Int)) := by
  obtain ⟨i0, i2, hi0, hi2, di0, di2⟩ := chars_of_length currentLayout hc
  obtain ⟨o0, o2, ho0, ho2, do0, do2⟩ := chars_of_length outLayout ho
  have hp := layoutPermutation_eq currentLayout outLayout i0 i2 o0 o2 hi0 hi2 ho0 ho2
  obtain ⟨e1, e2, e3, e4, e5⟩ :=
    permutationOfIndices_entries (labelIndex i0 i2 'C') (labelIndex i0 i2 'W')
      (labelIndex i0 i2 'H') (labelIndex o0 o2 'C') (labelIndex o0 o2 'W')
      (labelIndex o0 o2 'H') (labelIndex_bounds o0 o2 'C') (labelIndex_bounds o0 o2 'W')
      (labelIndex_bounds o0 o2 'H')
  refine ⟨permutationOfChars i0 i2 o0 o2, i0, i2, o0, o2, di0, di2, do0, do2, hp,
    e1, e2, e3, e4, e5, ?_⟩
  intro hv
  rw [twoLabels_eq outLayout o0 o2 ho0 ho2] at hv
  obtain ⟨n1, n2, n3⟩ := labelIndex_injective_of_labels o0 o2 hv
  exact ⟨e5 n1 n2, e4 n3, e3⟩

/-- Witness for C3 as amended, at the descriptors `NCHW` and `NHWC`. -/
theorem layoutPermutation_entries_witness :
    3 ≤ "NCHW".length ∧ 3 ≤ "NHWC".length ∧
    ∃ (p : List Int) (i0 i2 o0 o2 : Char),
      "NCHW".data[0]? = some i0 ∧ "NCHW".data[2]? = some i2 ∧
      "NHWC".data[0]? = some o0 ∧ "NHWC".data[2]? = some o2 ∧
      layoutPermutation "NCHW" "NHWC" = some p ∧
      p.length = 4 ∧ p[0]? = some 0 ∧
      p[labelIndex o0 o2 'H']? = some (labelIndex i0 i2 'H' : Int) ∧
      (labelIndex o0 o2 'W' ≠ labelIndex o0 o2 'H' →
        p[labelIndex o0 o2 'W']? = some (labelIndex i0 i2 'W' : Int)) ∧
      (labelIndex o0 o2 'C' ≠ labelIndex o0 o2 'W' →
        labelIndex o0 o2 'C' ≠ labelIndex o0 o2 'H' →
        p[labelIndex o0 o2 'C']? = some (labelIndex i0 i2 'C' : Int)) ∧
      (twoLabels "NHWC" = true →
        p[labelIndex o0 o2 'C']? = some (labelIndex i0 i2 'C' : Int) ∧
        p[labelIndex o0 o2 'W']? = some (labelIndex i0 i2 'W' : Int) ∧
        p[labelIndex o0 o2 'H']? = some (labelIndex i0 i2 'H' : Int)) :=
  ⟨by decide, by decide, layoutPermutation_entries "NCHW" "NHWC" (by decide) (by decide)⟩

/-- C9: for descriptors of length at least 3, the vector of `layoutPermutation` is
a permutation of `0, 1, 2, 3` exactly when, in each descriptor, the characters at
positions 0 and 2 are two different axis labels, and exactly then `permute`
accepts it on a tensor of four dimensions; in every other case, among them every
descriptor that starts with `N`, the vector has a repeated entry. -/
theorem layoutPermutation_perm_iff (currentLayout outLayout : String)
    (hc : 3 ≤ currentLayout.length) (ho : 3 ≤ outLayout.length) :
    ∃ p, layoutPermutation currentLayout outLayout = some p ∧
      (p.Perm [0, 1, 2, 3] ↔ (twoLabels currentLayout = true ∧ twoLabels outLayout = true)) ∧
      (¬ (twoLabels currentLayout = true ∧ twoLabels outLayout = true) → ¬ p.Nodup) ∧
      (stringAt currentLayout 0 = some 'N' ∨ stringAt outLayout 0 = some 'N' → ¬ p.Nodup) ∧
      (∀ t : Tensor, t.sizes.length = 4 →
        ((∃ r, t.permute p = .ok r) ↔
          (twoLabels currentLayout = true ∧ twoLabels outLayout = true))) := by
  obtain ⟨i0, i2, hi0, hi2, -, -⟩ := chars_of_length currentLayout hc
  obtain ⟨o0, o2, ho0, ho2, -, -⟩ := chars_of_length outLayout ho
  have hp := layoutPermutation_eq currentLayout outLayout i0 i2 o0 o2 hi0 hi2 ho0 ho2
  have ht := table_perm_iff _ (labelIndex_mem_table i0 i2) _ (labelIndex_mem_table o0 o2)
  have hd := table_permuteDims _ (labelIndex_mem_table i0 i2) _ (labelIndex_mem_table o0 o2)
  have hperm : (permutationOfChars i0 i2 o0 o2).Perm [0, 1, 2, 3] ↔
      (twoLabels currentLayout = true ∧ twoLabels outLayout = true) := by
    rw [twoLabels_eq currentLayout i0 i2 hi0 hi2, twoLabels_eq outLayout o0 o2 ho0 ho2]
    exact ht.1
  have hnodup : (permutationOfChars i0 i2 o0 o2).Nodup ↔
      (twoLabels currentLayout = true ∧ twoLabels outLayout = true) := by
    rw [twoLabels_eq currentLayout i0 i2 hi0 hi2, twoLabels_eq outLayout o0 o2 ho0 ho2]
    exact ht.2
  refine ⟨permutationOfChars i0 i2 o0 o2, hp, hperm, fun hn hd => hn (hnodup.mp hd), ?_, ?_⟩
  · intro hN hd
    obtain ⟨v1, v2⟩ := hnodup.mp hd
    rw [twoLabels_eq currentLayout i0 i2 hi0 hi2] at v1
    rw [twoLabels_eq outLayout o0 o2 ho0 ho2] at v2
    rcases hN with hN | hN
    · rw [hi0] at hN
      cases hN
      simp [isAxisLabel] at v1
    · rw [ho0] at hN
      cases hN
      simp [isAxisLabel] at v2
  · intro t ht4
    have hlen : (permutationOfChars i0 i2 o0 o2).length = t.sizes.length := by
      rw [ht4]
      exact hd.1
    rw [permute_ok_iff t _ hlen, ht4, twoLabels_eq currentLayout i0 i2 hi0 hi2,
      twoLabels_eq outLayout o0 o2 ho0 ho2]
    exact hd.2

/-- Witness for C9, at the descriptors `CxHxW` and `NHWC`. -/
theorem layoutPermutation_perm_iff_witness :
    3 ≤ "CxHxW".length ∧ 3 ≤ "NHWC".length ∧
    ∃ p, layoutPermutation "CxHxW" "NHWC" = some p ∧
      (p.Perm [0, 1, 2, 3] ↔ (twoLabels "CxHxW" = true ∧ twoLabels "NHWC" = true)) ∧
      (¬ (twoLabels "CxHxW" = true ∧ twoLabels "NHWC" = true) → ¬ p.Nodup) ∧
      (stringAt "CxHxW" 0 = some 'N' ∨ stringAt "NHWC" 0 = some 'N' → ¬ p.Nodup) ∧
      (∀ t : Tensor, t.sizes.length = 4 →
        ((∃ r, t.permute p = .ok r) ↔
          (twoLabels "CxHxW" = true ∧ twoLabels "NHWC" = true))) :=
  ⟨by decide, by decide, layoutPermutation_perm_iff "CxHxW" "NHWC" (by decide) (by decide)⟩

/-- C10: when in both descriptors the characters at positions 0 and 2 are two
different axis labels, the vectors `layoutPermutation` returns for the two
directions are inverse permutations, and changing the layout of a tensor of four
dimensions from `L1` to `L2` and back succeeds and gives a tensor with the sizes,
the element type and the elements of the first. -/
theorem changeLayout_roundtrip (L1 L2 : String) (h1 : twoLabels L1 = true)
    (h2 : twoLabels L2 = true) :
    (∃ p q, layoutPermutation L1 L2 = some p ∧ layoutPermutation L2 L1 = some q ∧
      inversePermutations p q) ∧
    ∀ t : Tensor, t.sizes.length = 4 →
      ∃ r1 r2, changeLayout t L1 L2 = .ok r1 ∧ changeLayout r1 L2 L1 = .ok r2 ∧
        r2.sizes = t.sizes ∧ r2.dtype = t.dtype ∧
        ∀ a b c d : Nat, r2.elem [a, b, c, d] = t.elem [a, b, c, d] := by
  obtain ⟨i0, i2, hi0, hi2, hv1⟩ := twoLabels_chars L1 h1
  obtain ⟨o0, o2, ho0, ho2, hv2⟩ := twoLabels_chars L2 h2
  have hp := layoutPermutation_eq L1 L2 i0 i2 o0 o2 hi0 hi2 ho0 ho2
  have hq := layoutPermutation_eq L2 L1 o0 o2 i0 i2 ho0 ho2 hi0 hi2
  refine ⟨⟨_, _, hp, hq, ?_⟩, ?_⟩
  · exact table_inverse _ (labelIndex_mem_table i0 i2) _ (labelIndex_mem_table o0 o2) hv1 hv2
  · intro t ht
    by_cases hL : L1 = L2
    · subst hL
      exact ⟨t, t, changeLayout_eq_self t L1, changeLayout_eq_self t L1, rfl, rfl, fun _ _ _ _ => rfl⟩
    · have hL2 : L2 ≠ L1 := fun h => hL h.symm
      obtain ⟨dt, sizes, el⟩ := t
      match sizes, ht with
      | [s0, s1, s2, s3], _ =>
        obtain ⟨r1, r2, e1, e2, -, e4, e5, e6⟩ :=
          table_permute_roundtrip dt s0 s1 s2 s3 el _ (labelIndex_mem_table i0 i2) _
            (labelIndex_mem_table o0 o2) hv1 hv2
        refine ⟨r1, r2, ?_, ?_, e4, e5, e6⟩
        · simp only [changeLayout, hL, ne_eq, not_false_eq_true, if_true, hp]
          exact e1
        · simp only [changeLayout, hL2, ne_eq, not_false_eq_true, if_true, hq]
          exact e2

/-- Witness for C10, at the descriptors `CxHxW` and `HxWxC`. -/
theorem changeLayout_roundtrip_witness :
    twoLabels "CxHxW" = true ∧ twoLabels "HxWxC" = true ∧
    (∃ p q, layoutPermutation "CxHxW" "HxWxC" = some p ∧
      layoutPermutation "HxWxC" "CxHxW" = some q ∧ inversePermutations p q) ∧
    ∀ t : Tensor, t.sizes.length = 4 →
      ∃ r1 r2, changeLayout t "CxHxW" "HxWxC" = .ok r1 ∧
        changeLayout r1 "HxWxC" "CxHxW" = .ok r2 ∧
        r2.sizes = t.sizes ∧ r2.dtype = t.dtype ∧
        ∀ a b c d : Nat, r2.elem [a, b, c, d] = t.elem [a, b, c, d] :=
  ⟨by decide, by decide, changeLayout_roundtrip "CxHxW" "HxWxC" (by decide) (by decide)⟩

/-! ## Claims on the element type conversion -/

theorem wrapTo_of_mem (lo hi v : Int) (h1 : lo ≤ v) (h2 : v ≤ hi) : wrapTo lo hi v = v := by
  unfold wrapTo
  rw [Int.emod_eq_of_lt (by omega) (by omega)]
  omega

theorem convertElement_widening (native : ScalarType → ScalarType → Int → Int)
    (src dst : ScalarType) (v : Int) (hw : widens src dst = true) (hv : inRange src v = true) :
    convertElement native src dst v = v := by
  unfold widens at hw
  unfold inRange at hv
  unfold convertElement
  cases hs : src.intRange with
  | none => simp [hs] at hw
  | some ab =>
    obtain ⟨a, b⟩ := ab
    cases hd : dst.intRange with
    | none => simp [hs, hd] at hw
    | some lh =>
      obtain ⟨lo, hi⟩ := lh
      simp only [hs, hd, Bool.and_eq_true, decide_eq_true_eq] at hw hv
      simp only
      exact wrapTo_of_mem lo hi v (by omega) (by omega)

theorem to_dtype_sizes (native : ScalarType → ScalarType → Int → Int) (t : Tensor)
    (dtype : ScalarType) :
    (t.to native dtype).dtype = dtype ∧ (t.to native dtype).sizes = t.sizes := by
  unfold Tensor.to
  split
  · next h => exact ⟨h, rfl⟩
  · exact ⟨rfl, rfl⟩

theorem to_elem_widening (native : ScalarType → ScalarType → Int → Int) (t : Tensor)
    (dtype : ScalarType) (hw : widens t.dtype dtype = true)
    (hv : ∀ idx, inRange t.dtype (t.elem idx) = true) (idx : List Nat) :
    (t.to native dtype).elem idx = t.elem idx := by
  unfold Tensor.to
  split
  · rfl
  · exact convertElement_widening native t.dtype dtype (t.elem idx) hw (hv idx)

/-- C4: for a `DataType` that is none of the eight handled ones, `convertDataType`
returns the tensor it was given and logs one error, which names the type. -/
theorem convertDataType_unsupported (rt : Runtime) (t : Tensor) (datatype : DataType)
    (h : targetScalarType datatype = none) :
    convertDataType rt t datatype =
      (t, ["TorchInference: convertDataType: Type '" ++ rt.showDataType datatype
        ++ "' is not supported."]) := by
  cases datatype <;> first | rfl | exact absurd h (by simp [targetScalarType])

/-- Witness for C4, at a tensor of four bytes and the value 12 of the enumeration. -/
theorem convertDataType_unsupported_witness :
    targetScalarType (.TypeOther 12) = none ∧
    convertDataType ⟨fun _ _ v => v, fun _ => "12"⟩ ⟨.kByte, [2, 2], fun _ => 7⟩ (.TypeOther 12) =
      (⟨.kByte, [2, 2], fun _ => 7⟩,
        ["TorchInference: convertDataType: Type '" ++ "12" ++ "' is not supported."]) :=
  ⟨rfl, convertDataType_unsupported ⟨fun _ _ v => v, fun _ => "12"⟩
    ⟨.kByte, [2, 2], fun _ => 7⟩ (.TypeOther 12) rfl⟩

/-- C5: for each of the eight handled targets, `convertDataType` returns a tensor
of the element type the target names and of the sizes of the given tensor, and
logs nothing; when the conversion is a widening integer conversion and the
elements of the tensor are values of its element type, every element keeps its
value. -/
theorem convertDataType_supported (rt : Runtime) (t : Tensor) (datatype : DataType)
    (target : ScalarType) (h : targetScalarType datatype = some target) :
    (convertDataType rt t datatype).1.dtype = target ∧
      (convertDataType rt t datatype).1.sizes = t.sizes ∧
      (convertDataType rt t datatype).2 = [] ∧
      (widens t.dtype target = true → (∀ idx, inRange t.dtype (t.elem idx) = true) →
        ∀ idx, (convertDataType rt t datatype).1.elem idx = t.elem idx) := by
  cases datatype <;> simp only [targetScalarType, Option.some.injEq] at h <;>
    first
    | (subst h
       exact ⟨(to_dtype_sizes rt.nativeCast t _).1, (to_dtype_sizes rt.nativeCast t _).2, rfl,
        fun hw hv idx => to_elem_widening rt.nativeCast t _ hw hv idx⟩)
    | exact absurd h (by simp)

/-- Witness for C5: a tensor of `int8_t` elements, all equal to -5, converted to
`TypeInt32`. -/
theorem convertDataType_supported_witness :
    targetScalarType .TypeInt32 = some .kInt ∧ widens .kChar .kInt = true ∧
      (convertDataType ⟨fun _ _ _ => 0, fun _ => ""⟩ ⟨.kChar, [2, 3], fun _ => -5⟩
        .TypeInt32).1.dtype = .kInt ∧
      (convertDataType ⟨fun _ _ _ => 0, fun _ => ""⟩ ⟨.kChar, [2, 3], fun _ => -5⟩
        .TypeInt32).1.sizes = [2, 3] ∧
      ∀ idx, (convertDataType ⟨fun _ _ _ => 0, fun _ => ""⟩ ⟨.kChar, [2, 3], fun _ => -5⟩
        .TypeInt32).1.elem idx = -5 :=
  ⟨rfl, by decide,
    (convertDataType_supported ⟨fun _ _ _ => 0, fun _ => ""⟩ ⟨.kChar, [2, 3], fun _ => -5⟩
      .TypeInt32 .kInt rfl).1,
    (convertDataType_supported ⟨fun _ _ _ => 0, fun _ => ""⟩ ⟨.kChar, [2, 3], fun _ => -5⟩
      .TypeInt32 .kInt rfl).2.1,
    (convertDataType_supported ⟨fun _ _ _ => 0, fun _ => ""⟩ ⟨.kChar, [2, 3], fun _ => -5⟩
      .TypeInt32 .kInt rfl).2.2.2 (by decide) (fun _ => rfl)⟩

/-! ## Claims on loading -/

theorem loadedModel_eq_some (env : Env) (path : String) (onDevice : Module) :
    loadedModel env path = some onDevice ↔
      ∃ m, env.jitLoad path = .success m ∧ env.toCUDA m = .success onDevice := by
  unfold loadedModel
  cases h : env.jitLoad path with
  | success m => cases h2 : env.toCUDA m <;> simp [h2]
  | c10Error w ms => simp
  | runtimeError w => simp
  | otherException w => simp

theorem module?_eq_some (o : Outcome) (m : Module) : o.module? = some m ↔ o = .success m := by
  cases o <;> simp [Outcome.module?]

theorem tryLoadModel_outcome (env : Env) (path : String) :
    (tryLoadModel env path).1.module? = loadedModel env path ∧
      ((∀ p, (env.jitLoad p).handled = true) → (∀ m, (env.toCUDA m).handled = true) →
        (tryLoadModel env path).1.handled = true) := by
  unfold tryLoadModel loadedModel
  constructor
  · cases h : env.jitLoad path with
    | success m => cases h2 : env.toCUDA m <;> simp [Outcome.module?, h2]
    | c10Error w ms => simp [Outcome.module?]
    | runtimeError w => simp [Outcome.module?]
    | otherException w => simp [Outcome.module?]
  · intro hl hc
    have hl1 := hl path
    cases h : env.jitLoad path with
    | success m => exact hc m
    | c10Error w ms => rfl
    | runtimeError w => rfl
    | otherException w =>
      rw [h] at hl1
      exact absurd hl1 (by simp [Outcome.handled])

theorem loadModelStep_of_empty (env : Env) (self : TorchInference)
    (h : self.m_modelFilename = "") :
    loadModelStep env self = { self := self, events := [], raised := none } := by
  simp [loadModelStep, h]

theorem loadModelStep_self (env : Env) (f n d : String) :
    (loadModelStep env ⟨f, n, d, none, none, none⟩).self =
      ⟨f, n, d, if f ≠ "" ∧ env.fileExists f = true then loadedModel env f else none,
        none, none⟩ := by
  have ho := (tryLoadModel_outcome env f).1
  unfold loadModelStep
  by_cases h : f = ""
  · simp [h]
  · by_cases hf : env.fileExists f = true
    · simp only [ne_eq, h, not_false_eq_true, if_true, hf, and_self]
      rw [← ho]
      generalize tryLoadModel env f = r
      obtain ⟨o, calls⟩ := r
      cases o <;> simp [Outcome.module?]
    · simp [h, hf]

theorem loadModelStep_raised (env : Env) (self : TorchInference)
    (hl : ∀ p, (env.jitLoad p).handled = true) (hc : ∀ m, (env.toCUDA m).handled = true) :
    (loadModelStep env self).raised = none := by
  have ho := (tryLoadModel_outcome env self.m_modelFilename).2 hl hc
  unfold loadModelStep
  split
  · split
    · generalize tryLoadModel env self.m_modelFilename = r at ho
      obtain ⟨o, calls⟩ := r
      cases o <;> simp [Outcome.handled] at ho ⊢
    · rfl
  · rfl

theorem buildNormalizationStep_self (env : Env) (f n d : String) (m1 : Option Module) :
    (buildNormalizationStep env ⟨f, n, d, m1, none, none⟩).self =
      ⟨f, n, d, m1,
        if n ≠ "" then (env.jitCompile (normalizeSource n)).module? else none, none⟩ := by
  unfold buildNormalizationStep
  by_cases h : n = ""
  · simp [h]
  · simp only [ne_eq, h, not_false_eq_true, if_true]
    cases env.jitCompile (normalizeSource n) <;> simp [Outcome.module?]

theorem buildNormalizationStep_raised (env : Env) (self : TorchInference) :
    (buildNormalizationStep env self).raised = none ↔
      (self.m_inputNormalization = "" ∨
        (env.jitCompile (normalizeSource self.m_inputNormalization)).handled = true) := by
  unfold buildNormalizationStep
  by_cases h : self.m_inputNormalization = ""
  · simp [h]
  · simp only [ne_eq, h, not_false_eq_true, if_true, false_or]
    cases env.jitCompile (normalizeSource self.m_inputNormalization) <;> simp [Outcome.handled]

theorem buildDenormalizationStep_self (env : Env) (f n d : String) (m1 m2 : Option Module) :
    (buildDenormalizationStep env ⟨f, n, d, m1, m2, none⟩).self =
      ⟨f, n, d, m1, m2,
        if d ≠ "" then (env.jitCompile (denormalizeSource d)).module? else none⟩ := by
  unfold buildDenormalizationStep
  by_cases h : d = ""
  · simp [h]
  · simp only [ne_eq, h, not_false_eq_true, if_true]
    cases env.jitCompile (denormalizeSource d) <;> simp [Outcome.module?]

theorem buildDenormalizationStep_raised (env : Env) (self : TorchInference) :
    (buildDenormalizationStep env self).raised = none ↔
      (self.m_outputDenormalization = "" ∨
        (env.jitCompile (denormalizeSource self.m_outputDenormalization)).handled = true) := by
  unfold buildDenormalizationStep
  by_cases h : self.m_outputDenormalization = ""
  · simp [h]
  · simp only [ne_eq, h, not_false_eq_true, if_true, false_or]
    cases env.jitCompile (denormalizeSource self.m_outputDenormalization) <;>
      simp [Outcome.handled]

theorem buildNormalizationStep_events (env : Env) (self : TorchInference) :
    ∀ e ∈ (buildNormalizationStep env self).events, e.besideModel = true := by
  unfold buildNormalizationStep
  split
  · split <;> simp [Event.besideModel]
  · simp

theorem buildDenormalizationStep_events (env : Env) (self : TorchInference) :
    ∀ e ∈ (buildDenormalizationStep env self).events, e.besideModel = true := by
  unfold buildDenormalizationStep
  split
  · split <;> simp [Event.besideModel]
  · simp

theorem logErrorIf_events (cond : Bool) (message : String) :
    ∀ e ∈ logErrorIf cond message, e.besideModel = true := by
  unfold logErrorIf
  split <;> simp [Event.besideModel]

theorem loadModule_of_empty (env : Env) (n d : String) (m1 m2 m3 : Option Module) :
    (loadModule env ⟨"", n, d, m1, m2, m3⟩).self.m_torchModule = none ∧
      Event.logError "TorchInference: Error while loading model: Model path is empty." ∈
        (loadModule env ⟨"", n, d, m1, m2, m3⟩).events ∧
      (∀ e ∈ (loadModule env ⟨"", n, d, m1, m2, m3⟩).events, e.besideModel = true) ∧
      ((loadModule env ⟨"", n, d, m1, m2, m3⟩).raised = none ↔
        ((n = "" ∨ (env.jitCompile (normalizeSource n)).handled = true) ∧
          (d = "" ∨ (env.jitCompile (denormalizeSource d)).handled = true))) := by
  have hn := buildNormalizationStep_raised env ⟨"", n, d, none, none, none⟩
  have hns := buildNormalizationStep_self env "" n d none
  have hne := buildNormalizationStep_events env ⟨"", n, d, none, none, none⟩
  have hd := buildDenormalizationStep_raised env
    (buildNormalizationStep env ⟨"", n, d, none, none, none⟩).self
  have hds := buildDenormalizationStep_self env "" n d none
    (if n ≠ "" then (env.jitCompile (normalizeSource n)).module? else none)
  have hde := buildDenormalizationStep_events env
    (buildNormalizationStep env ⟨"", n, d, none, none, none⟩).self
  rw [hns] at hd hde
  simp only [loadModule]
  rw [loadModelStep_of_empty env _ rfl]
  simp only [hns]
  simp only at hn hd
  cases hr : (buildNormalizationStep env ⟨"", n, d, none, none, none⟩).raised with
  | some what =>
    have hn2 : ¬ (n = "" ∨ (env.jitCompile (normalizeSource n)).handled = true) := by
      rw [← hn, hr]
      simp
    refine ⟨rfl, ?_, ?_, ?_⟩
    · simp [logErrorIf]
    · intro e he
      simp only [List.append_nil, List.mem_append] at he
      rcases he with ((he | he) | he) | he
      · exact logErrorIf_events _ _ e he
      · exact logErrorIf_events _ _ e he
      · exact logErrorIf_events _ _ e he
      · exact hne e he
    · simp only [reduceCtorEq, false_iff, not_and]
      intro hx
      exact absurd hx hn2
  | none =>
    have hn2 : (n = "" ∨ (env.jitCompile (normalizeSource n)).handled = true) := by
      rw [← hn, hr]
    refine ⟨?_, ?_, ?_, ?_⟩
    · simp only [hds]
    · simp [logErrorIf]
    · intro e he
      simp only [List.append_nil, List.mem_append] at he
      rcases he with (((he | he) | he) | he) | he
      · exact logErrorIf_events _ _ e he
      · exact logErrorIf_events _ _ e he
      · exact logErrorIf_events _ _ e he
      · exact hne e he
      · exact hde e he
    · simp only
      rw [hd]
      exact ⟨fun hx => ⟨hn2, hx⟩, fun hx => hx.2⟩

theorem loadModule_of_handled (env : Env) (f n d : String) (m1 m2 m3 : Option Module)
    (hl : ∀ p, (env.jitLoad p).handled = true) (hc : ∀ m, (env.toCUDA m).handled = true)
    (hj : ∀ src, (env.jitCompile src).handled = true) :
    (loadModule env ⟨f, n, d, m1, m2, m3⟩).raised = none ∧
      (loadModule env ⟨f, n, d, m1, m2, m3⟩).self =
        ⟨f, n, d, if f ≠ "" ∧ env.fileExists f = true then loadedModel env f else none,
          if n ≠ "" then (env.jitCompile (normalizeSource n)).module? else none,
          if d ≠ "" then (env.jitCompile (denormalizeSource d)).module? else none⟩ := by
  have hm := loadModelStep_raised env ⟨f, n, d, none, none, none⟩ hl hc
  have hms := loadModelStep_self env f n d
  have hn := (buildNormalizationStep_raised env
    (loadModelStep env ⟨f, n, d, none, none, none⟩).self).mpr (Or.inr (hj _))
  have hns := buildNormalizationStep_self env f n d
    (if f ≠ "" ∧ env.fileExists f = true then loadedModel env f else none)
  have hd := (buildDenormalizationStep_raised env
    (buildNormalizationStep env
      (loadModelStep env ⟨f, n, d, none, none, none⟩).self).self).mpr (Or.inr (hj _))
  have hds := buildDenormalizationStep_self env f n d
    (if f ≠ "" ∧ env.fileExists f = true then loadedModel env f else none)
    (if n ≠ "" then (env.jitCompile (normalizeSource n)).module? else none)
  simp only [loadModule]
  simp only [hm, hn, hd]
  rw [hms, hns, hds]
  exact ⟨trivial, rfl⟩

/-- C6, the claim fails: with an empty model path and a compiler that raises an
exception that is neither a `c10::Error` nor a `std::runtime_error`, no handler
of `loadModule` matches and the exception leaves `loadModule`. -/
theorem loadModule_raises_uncaught :
    sampleAdapter.m_modelFilename = "" ∧
      sampleEnvLogicError.jitCompile (normalizeSource sampleAdapter.m_inputNormalization) =
        .otherException "std::logic_error" ∧
      (loadModule sampleEnvLogicError sampleAdapter).raised = some "std::logic_error" := by
  decide

/-- C6 as amended: when the model path is empty, whatever the compiler answers,
`loadModule` leaves the model unset, logs the error on the empty model path, and
makes no file check and no step of loading a model; it returns without raising
exactly when neither compile call it makes raises an exception of a type other
than `c10::Error` and `std::runtime_error`, so in particular when the compiler
only returns or raises one of these two. -/
theorem loadModule_empty_model_path (env : Env) (self : TorchInference)
    (h : self.m_modelFilename = "") :
    (loadModule env self).self.m_torchModule = none ∧
      Event.logError "TorchInference: Error while loading model: Model path is empty." ∈
        (loadModule env self).events ∧
      (∀ path, Event.fileExistsCall path ∉ (loadModule env self).events) ∧
      (∀ path, Event.jitLoadCall path ∉ (loadModule env self).events) ∧
      (∀ module, Event.toCUDACall module ∉ (loadModule env self).events) ∧
      ((loadModule env self).raised = none ↔
        ((self.m_inputNormalization = "" ∨
            (env.jitCompile (normalizeSource self.m_inputNormalization)).handled = true) ∧
          (self.m_outputDenormalization = "" ∨
            (env.jitCompile (denormalizeSource self.m_outputDenormalization)).handled
              = true))) ∧
      ((∀ src, (env.jitCompile src).handled = true) → (loadModule env self).raised = none) := by
  obtain ⟨f, n, d, m1, m2, m3⟩ := self
  simp only at h
  subst h
  obtain ⟨hmodel, hlog, hev, hraised⟩ := loadModule_of_empty env n d m1 m2 m3
  refine ⟨hmodel, hlog, ?_, ?_, ?_, hraised, ?_⟩
  · intro path hmem
    exact absurd (hev _ hmem) (by simp [Event.besideModel])
  · intro path hmem
    exact absurd (hev _ hmem) (by simp [Event.besideModel])
  · intro module hmem
    exact absurd (hev _ hmem) (by simp [Event.besideModel])
  · intro hj
    exact hraised.mpr ⟨Or.inr (hj _), Or.inr (hj _)⟩

/-- Witness for C6 as amended, at the sample adapter in the sample environment,
whose compiler raises a `std::runtime_error`. -/
theorem loadModule_empty_model_path_witness :
    sampleAdapter.m_modelFilename = "" ∧
    (loadModule sampleEnv sampleAdapter).self.m_torchModule = none ∧
      Event.logError "TorchInference: Error while loading model: Model path is empty." ∈
        (loadModule sampleEnv sampleAdapter).events ∧
      (∀ path, Event.fileExistsCall path ∉ (loadModule sampleEnv sampleAdapter).events) ∧
      (∀ path, Event.jitLoadCall path ∉ (loadModule sampleEnv sampleAdapter).events) ∧
      (∀ module, Event.toCUDACall module ∉ (loadModule sampleEnv sampleAdapter).events) ∧
      (loadModule sampleEnv sampleAdapter).raised = none :=
  ⟨rfl, (loadModule_empty_model_path sampleEnv sampleAdapter rfl).1,
    (loadModule_empty_model_path sampleEnv sampleAdapter rfl).2.1,
    (loadModule_empty_model_path sampleEnv sampleAdapter rfl).2.2.1,
    (loadModule_empty_model_path sampleEnv sampleAdapter rfl).2.2.2.1,
    (loadModule_empty_model_path sampleEnv sampleAdapter rfl).2.2.2.2.1,
    (loadModule_empty_model_path sampleEnv sampleAdapter rfl).2.2.2.2.2.2 (fun _ => rfl)⟩

/-- C7: constructing the adapter with an empty normalization string, or with an
empty denormalization string, gives the same adapter and the same events (calls
and logged errors) as constructing it with the expression `a` in that place. -/
theorem new_empty_expression_eq_identity (env : Env) (modelFilename expression : String) :
    TorchInference.new env modelFilename "" expression =
        TorchInference.new env modelFilename "a" expression ∧
      TorchInference.new env modelFilename expression "" =
        TorchInference.new env modelFilename expression "a" := by
  constructor
  · simp [TorchInference.new]
  · by_cases h : expression = "" <;> simp [TorchInference.new, h]

/-- C8: when every call into the runtime returns or raises a `c10::Error` or a
`std::runtime_error`, `loadModule` returns without raising and, whatever
artifacts the adapter held before: the model is set exactly when the model path
is not empty, the file exists, `torch::jit::load` returns a module and its
transfer to the device returns, and it is then the module the transfer returned;
the normalization (denormalization) module is set exactly when its string is not
empty and the compiler returns a module for its source, and it is then that
module; the three strings are unchanged; and the run does not depend on the
artifacts held before. -/
theorem loadModule_artifacts (env : Env) (self : TorchInference)
    (hl : ∀ path, (env.jitLoad path).handled = true)
    (hc : ∀ module, (env.toCUDA module).handled = true)
    (hj : ∀ source, (env.jitCompile source).handled = true) :
    (loadModule env self).raised = none ∧
      ((loadModule env self).self.m_torchModule.isSome = true ↔
        (self.m_modelFilename ≠ "" ∧ env.fileExists self.m_modelFilename = true ∧
          ∃ m onDevice, env.jitLoad self.m_modelFilename = .success m ∧
            env.toCUDA m = .success onDevice)) ∧
      (∀ onDevice, (loadModule env self).self.m_torchModule = some onDevice ↔
        (self.m_modelFilename ≠ "" ∧ env.fileExists self.m_modelFilename = true ∧
          ∃ m, env.jitLoad self.m_modelFilename = .success m ∧
            env.toCUDA m = .success onDevice)) ∧
      (∀ m, (loadModule env self).self.m_inputNormalizationModule = some m ↔
        (self.m_inputNormalization ≠ "" ∧
          env.jitCompile (normalizeSource self.m_inputNormalization) = .success m)) ∧
      (∀ m, (loadModule env self).self.m_outputDenormalizationModule = some m ↔
        (self.m_outputDenormalization ≠ "" ∧
          env.jitCompile (denormalizeSource self.m_outputDenormalization) = .success m)) ∧
      (loadModule env self).self.m_modelFilename = self.m_modelFilename ∧
      (loadModule env self).self.m_inputNormalization = self.m_inputNormalization ∧
      (loadModule env self).self.m_outputDenormalization = self.m_outputDenormalization ∧
      ∀ before1 before2 before3,
        loadModule env
            { self with
              m_torchModule := before1
              m_inputNormalizationModule := before2
              m_outputDenormalizationModule := before3 } = loadModule env self := by
  obtain ⟨f, n, d, m1, m2, m3⟩ := self
  obtain ⟨hr, hs⟩ := loadModule_of_handled env f n d m1 m2 m3 hl hc hj
  have hval : ∀ onDevice, (loadModule env ⟨f, n, d, m1, m2, m3⟩).self.m_torchModule
      = some onDevice ↔ (f ≠ "" ∧ env.fileExists f = true ∧
          ∃ m, env.jitLoad f = .success m ∧ env.toCUDA m = .success onDevice) := by
    intro onDevice
    rw [hs]
    simp only
    by_cases h : f ≠ "" ∧ env.fileExists f = true
    · rw [if_pos h, loadedModel_eq_some]
      exact ⟨fun hx => ⟨h.1, h.2, hx⟩, fun hx => hx.2.2⟩
    · rw [if_neg h]
      constructor
      · intro hx
        cases hx
      · intro hx
        exact absurd ⟨hx.1, hx.2.1⟩ h
  refine ⟨hr, ?_, hval, ?_, ?_, ?_, ?_, ?_, ?_⟩
  · rw [Option.isSome_iff_exists]
    constructor
    · rintro ⟨onDevice, hx⟩
      obtain ⟨h1, h2, m, h3, h4⟩ := (hval onDevice).mp hx
      exact ⟨h1, h2, m, onDevice, h3, h4⟩
    · rintro ⟨h1, h2, m, onDevice, h3, h4⟩
      exact ⟨onDevice, (hval onDevice).mpr ⟨h1, h2, m, h3, h4⟩⟩
  · intro m
    rw [hs]
    simp only
    by_cases h : n = ""
    · simp [h]
    · simp [h, module?_eq_some]
  · intro m
    rw [hs]
    simp only
    by_cases h : d = ""
    · simp [h]
    · simp [h, module?_eq_some]
  · rw [hs]
  · rw [hs]
  · rw [hs]
  · intro b1 b2 b3
    rfl

/-- Witness for C8, at an adapter with a model path in the sample environment,
whose loader returns module 1 and whose compiler raises a `std::runtime_error`:
the run returns, the model is module 1 and the normalization module, set before
the call, is unset. -/
theorem loadModule_artifacts_witness :
    (∀ path, (sampleEnv.jitLoad path).handled = true) ∧
      (∀ module, (sampleEnv.toCUDA module).handled = true) ∧
      (∀ source, (sampleEnv.jitCompile source).handled = true) ∧
      (loadModule sampleEnv sampleAdapterWithPath).raised = none ∧
      (loadModule sampleEnv sampleAdapterWithPath).self.m_torchModule = some ⟨1⟩ ∧
      ∀ m, (loadModule sampleEnv sampleAdapterWithPath).self.m_inputNormalizationModule
        ≠ some m :=
  ⟨fun _ => rfl, fun _ => rfl, fun _ => rfl,
    (loadModule_artifacts sampleEnv sampleAdapterWithPath (fun _ => rfl) (fun _ => rfl)
      (fun _ => rfl)).1,
    ((loadModule_artifacts sampleEnv sampleAdapterWithPath (fun _ => rfl) (fun _ => rfl)
      (fun _ => rfl)).2.2.1 ⟨1⟩).mpr ⟨by decide, rfl, ⟨1⟩, rfl, rfl⟩,
    fun m hm =>
      absurd (((loadModule_artifacts sampleEnv sampleAdapterWithPath (fun _ => rfl)
        (fun _ => rfl) (fun _ => rfl)).2.2.2.1 m).mp hm).2 (by simp [sampleEnv])⟩

end supra
